import Mathlib

/-!
Verification of the real-time speech turn-taking pipeline of the sherpa
repository (src/app/SimliOpenAI.tsx and its duplicate src/unnamed/part_000).

The embedding models:
* the audio resampler (`applyLowPassFilter`, `downsampleAudio`);
* the chunker and the chunk delivery queue (`chunkify`, `processNextAudioChunk`);
* the turn-taking orchestration (`onTranscriptionStep`, `onConnectionChange`,
  `processBackendResponse`, `handleStop`) as a step function on an explicit
  session state, driven by a list of external events;
* the backend response parsing (`sendMessageToBackend`).

Numeric conventions of the embedding:
* PCM buffers are `List ℤ`; every store into a JavaScript `Int16Array`
  is modelled by the two's-complement wrap `toInt16`.
* All floating-point arithmetic of the source is idealised as exact `ℚ`
  arithmetic.  The host `Math` library (`Math.sin`, `Math.cos`, `Math.PI`)
  is an external collaborator of the code and is passed in as an explicit
  environment `MathEnv` of rational-valued functions, so that every
  definition stays executable.
* JavaScript `Math.round` (round half toward +∞) is `jsRound`;
  JavaScript `Math.floor` is `Int.floor`.
-/

/-- JavaScript `Math.round` on a finite value: round half toward positive
infinity, i.e. `⌊x + 1/2⌋`. -/
def jsRound (x : ℚ) : ℤ := ⌊x + 1/2⌋

/-- Modelled from the spec: the rounding mode the spec prescribes for the
resampler, round half away from zero. -/
def roundAway (x : ℚ) : ℤ := if 0 ≤ x then ⌊x + 1/2⌋ else -⌊-x + 1/2⌋

/-- Storing an integer into a JavaScript `Int16Array` slot: conversion
modulo 2^16 into the signed 16-bit range (ToInt16).  No clamping. -/
def toInt16 (z : ℤ) : ℤ := (z + 32768) % 65536 - 32768

/-- Reading `data[idx]` from an `Int16Array` at a (possibly signed) index:
in bounds it is the stored sample, out of bounds the read is `undefined`
and every arithmetic use in the source flows through `Int16Array` stores,
where it becomes 0. -/
def getZ (data : List ℤ) (idx : ℤ) : ℤ :=
  if idx < 0 then 0 else data.getD idx.toNat 0

/-- The host `Math` library as seen by the filter code: `Math.sin`,
`Math.cos` and `Math.PI`, idealised as rational-valued. -/
structure MathEnv where
  sin : ℚ → ℚ
  cos : ℚ → ℚ
  pi : ℚ

/-- The Hamming window factor `0.54 − 0.46·cos(2πi/(numberOfTaps−1))`
applied to tap `i` (numberOfTaps = 31). -/
def hammingAt (env : MathEnv) (i : ℕ) : ℚ :=
  0.54 - 0.46 * env.cos (2 * env.pi * i / 30)

/-- The raw (pre-normalization) windowed-sinc coefficient of tap `i`
built by `applyLowPassFilter` for normalized cutoff `fc = cutoffFreq / sampleRate`:
`2πfc` at the middle tap, otherwise `sin(2πfc(i−middle))/(i−middle)`,
times the Hamming window. -/
def coeffRaw (env : MathEnv) (fc : ℚ) (i : ℕ) : ℚ :=
  (if i = 15 then 2 * env.pi * fc
   else env.sin (2 * env.pi * fc * ((i : ℚ) - 15)) / ((i : ℚ) - 15)) * hammingAt env i

/-- The sum of the 31 raw coefficients (the `reduce` in the source). -/
def coeffSum (env : MathEnv) (fc : ℚ) : ℚ :=
  ∑ i ∈ Finset.range 31, coeffRaw env fc i

/-- The normalized coefficient of tap `i`: `coefficients[i] /= sum`. -/
def coeffNorm (env : MathEnv) (fc : ℚ) (i : ℕ) : ℚ :=
  coeffRaw env fc i / coeffSum env fc

/-- The exact convolution sum computed for output index `i` of the filter
loop: taps `j = 0..30`, signal index `idx = i − j + middle`, samples outside
the range contribute 0. -/
def convAt (env : MathEnv) (fc : ℚ) (data : List ℤ) (i : ℕ) : ℚ :=
  ∑ j ∈ Finset.range 31,
    if 0 ≤ (i : ℤ) - j + 15 ∧ (i : ℤ) - j + 15 < (data.length : ℤ)
    then coeffNorm env fc j * (getZ data ((i : ℤ) - j + 15) : ℚ)
    else 0

/-- `applyLowPassFilter(data, cutoffFreq, sampleRate)` of the source:
31-tap windowed-sinc FIR, normalized, convolved with zero padding, each
output sample `Math.round`ed and stored into an `Int16Array`. -/
def applyLowPassFilter (env : MathEnv) (data : List ℤ)
    (cutoffFreq sampleRate : ℚ) : List ℤ :=
  (List.range data.length).map fun i =>
    toInt16 (jsRound (convAt env (cutoffFreq / sampleRate) data i))

/-- Modelled from the spec: `applyLowPassFilter` with the spec's claimed
rounding mode (round half away from zero) in place of `Math.round`;
everything else identical.  Used only to compare rounding policies. -/
def applyLowPassFilterAway (env : MathEnv) (data : List ℤ)
    (cutoffFreq sampleRate : ℚ) : List ℤ :=
  (List.range data.length).map fun i =>
    toInt16 (roundAway (convAt env (cutoffFreq / sampleRate) data i))

/-- `downsampleAudio(audioData, inputSampleRate, outputSampleRate)` of the
source: identity at equal rates, error on upsampling, otherwise low-pass
filter at `0.45 · outputRate` then linear interpolation at positions
`i · ratio`.  (`Math.floor(len/ratio)` can only be negative for negative
rates, which the claims exclude; `toNat` then clips to an empty output.) -/
def downsampleAudio (env : MathEnv) (audioData : List ℤ)
    (inputSampleRate outputSampleRate : ℚ) : Except String (List ℤ) :=
  if inputSampleRate = outputSampleRate then .ok audioData
  else if inputSampleRate < outputSampleRate then
    .error "Upsampling is not supported"
  else
    let filteredData := applyLowPassFilter env audioData
      (outputSampleRate * 0.45) inputSampleRate
    let ratio := inputSampleRate / outputSampleRate
    let newLength := (⌊(audioData.length : ℚ) / ratio⌋).toNat
    .ok ((List.range newLength).map fun (i : ℕ) =>
      let position : ℚ := (i : ℚ) * ratio
      let index : ℤ := ⌊position⌋
      let fraction : ℚ := position - index
      if index + 1 < (filteredData.length : ℤ) then
        toInt16 (jsRound ((getZ filteredData index : ℚ) +
          fraction * ((getZ filteredData (index + 1) : ℚ) - (getZ filteredData index : ℚ))))
      else toInt16 (getZ filteredData index))

/-- Modelled from the spec: `downsampleAudio` with the spec's claimed
rounding mode (round half away from zero) throughout; everything else
identical.  Used only to compare rounding policies. -/
def downsampleAudioAway (env : MathEnv) (audioData : List ℤ)
    (inputSampleRate outputSampleRate : ℚ) : Except String (List ℤ) :=
  if inputSampleRate = outputSampleRate then .ok audioData
  else if inputSampleRate < outputSampleRate then
    .error "Upsampling is not supported"
  else
    let filteredData := applyLowPassFilterAway env audioData
      (outputSampleRate * 0.45) inputSampleRate
    let ratio := inputSampleRate / outputSampleRate
    let newLength := (⌊(audioData.length : ℚ) / ratio⌋).toNat
    .ok ((List.range newLength).map fun (i : ℕ) =>
      let position : ℚ := (i : ℚ) * ratio
      let index : ℤ := ⌊position⌋
      let fraction : ℚ := position - index
      if index + 1 < (filteredData.length : ℤ) then
        toInt16 (roundAway ((getZ filteredData index : ℚ) +
          fraction * ((getZ filteredData (index + 1) : ℚ) - (getZ filteredData index : ℚ))))
      else toInt16 (getZ filteredData index))

/-- The spec's description of the interpolation step: linear interpolation
between the filtered samples at `⌊p⌋` and `⌊p⌋+1` with fractional weight
`p − ⌊p⌋`. -/
def interpSpec (filtered : List ℤ) (p : ℚ) : ℚ :=
  (1 - (p - ⌊p⌋)) * (getZ filtered ⌊p⌋ : ℚ) +
    (p - ⌊p⌋) * (getZ filtered (⌊p⌋ + 1) : ℚ)

/-- A concrete `Math` environment used for witnesses: `sin` and `cos`
identically 0, `π := 1`.  It agrees with the real `Math.sin` at argument 0. -/
def env0 : MathEnv := ⟨fun _ => 0, fun _ => 0, 1⟩

/-- A concrete `Math` environment whose kernel (at cutoff 1, rate 2) has
normalized coefficients 2 at the middle tap and −1 at tap 14, exposing
that out-of-range filter outputs wrap rather than clamp. -/
def envWrap : MathEnv := ⟨fun x => if x = -1 then 1/2 else 0, fun _ => 0, 1⟩

instance {ε α : Type} [DecidableEq ε] [DecidableEq α] : DecidableEq (Except ε α) := fun a b =>
  match a, b with
  | .error e, .error f =>
      if h : e = f then .isTrue (by rw [h]) else .isFalse (by simp [h])
  | .error _, .ok _ => .isFalse (by simp)
  | .ok _, .error _ => .isFalse (by simp)
  | .ok x, .ok y =>
      if h : x = y then .isTrue (by rw [h]) else .isFalse (by simp [h])

/-- The chunking loop of `processBackendResponse`:
`for (let i = 0; i < downsampledAudio.length; i += chunkSize) push(slice(i, i+chunkSize))`,
phrased on lists: repeatedly take `c` samples and continue on the rest.
The `1 ≤ c` guard only serves termination; the source runs it with the
constant `chunkSize = 4800`, and every claim assumes a chunk size of at
least one sample, where the guard is always true. -/
def chunkify (c : ℕ) : List ℤ → List (List ℤ)
  | [] => []
  | x :: xs =>
    if 1 ≤ c then ((x :: xs).take c) :: chunkify c ((x :: xs).drop c)
    else []
  termination_by l => l.length
  decreasing_by simp_all [List.length_drop]; omega

/-- A backend response array element, as far as `sendMessageToBackend`
inspects it: `null`/`undefined` (property access throws a TypeError), an
object with an optional `text` property, or a non-null primitive (whose
`text` property access yields `undefined`). -/
inductive JsItem where
  | jnull
  | jobj (text : Option String)
  | jprim
deriving DecidableEq

/-- JavaScript `item.text`: throws on `null`/`undefined`, yields the
property (or `undefined`) otherwise. -/
def itemText : JsItem → Except Unit (Option String)
  | .jnull => .error ()
  | .jobj t => .ok t
  | .jprim => .ok none

/-- The axios `response.data` as far as `sendMessageToBackend` inspects
it: an array of elements, or any non-array value (with its truthiness). -/
inductive BackendData where
  | arr (items : List JsItem)
  | nonArr (truthy : Bool)
deriving DecidableEq

/-- `sendMessageToBackend` of the source, as a function of the outcome of
the HTTP POST (the axios call is the external collaborator).  A rejected
request is re-thrown from the catch block; on a fulfilled request the body
is checked to be a non-empty array, the last element's `text` is read
(a TypeError from reading `.text` of a null element also propagates to the
catch block and is re-thrown), and JavaScript `||` makes an absent or empty
`text` fall back to a canned reply. -/
def sendMessageToBackend (response : Except Unit BackendData) : Except Unit String :=
  match response with
  | .error e => .error e
  | .ok data =>
    match data with
    | .nonArr _ => .ok "Sorry, I didn't get a response."
    | .arr items =>
      if 0 < items.length then
        match itemText (items.getD (items.length - 1) .jnull) with
        | .error e => .error e
        | .ok none => .ok "Sorry, I didn't catch that."
        | .ok (some t) => .ok (if t = "" then "Sorry, I didn't catch that." else t)
      else .ok "Sorry, I didn't get a response."

/-- A Deepgram `TranscriptionResult` as consumed by `onTranscription`. -/
structure TranscriptionResult where
  transcript : String
  isFinal : Bool
  confidence : ℚ
  timestamp : ℕ
deriving DecidableEq

/-- The mutable refs of the component that the turn-taking pipeline reads
and writes (`isFirstRun`, `isSpeakingRef`, `audioChunkQueueRef`,
`isProcessingChunkRef`), plus `sent`, the log of chunks handed to
`simliClient.sendAudioData` (the avatar sink), recording delivery order.
UI-only state (`isRecording`, `isAvatarVisible`, error banners, timing
metrics) is out of scope and omitted. -/
structure SessionState where
  isFirstRun : Bool
  isSpeaking : Bool
  audioChunkQueue : List (List ℤ)
  isProcessingChunk : Bool
  sent : List (List ℤ)
deriving DecidableEq

/-- The component's initial state: `isFirstRun = true`, nothing queued,
no flag set. -/
def initialState : SessionState :=
  { isFirstRun := true, isSpeaking := false, audioChunkQueue := [],
    isProcessingChunk := false, sent := [] }

/-- `processNextAudioChunk` of the source.  The guard requires a non-empty
queue and no drain in flight; the body sets `isProcessingChunkRef := true`,
shifts the head chunk, sends it to the sink, sets the flag back to `false`
and recurses.  Since the flag is `false` on entry (guard) and restored to
`false` before the recursive call, the recursion is modelled directly on
the state with the shifted queue and the extended sink log.  (The inner
`if (audioChunk)` check of the source cannot fail: the queue was checked
non-empty.) -/
def processNextAudioChunk (st : SessionState) : SessionState :=
  match hq : st.audioChunkQueue with
  | [] => st
  | audioChunk :: rest =>
    if st.isProcessingChunk then st
    else
      have : rest.length < st.audioChunkQueue.length := by simp [hq]
      processNextAudioChunk
        { st with audioChunkQueue := rest, sent := st.sent ++ [audioChunk] }
  termination_by st.audioChunkQueue.length

/-- `processBackendResponse(responseText)` of the source.  On entry it sets
`isSpeakingRef := true`; it then awaits `textToSpeech(responseText)` (an
external collaborator whose outcome is the `tts` parameter), downsamples
24000 → 16000, splits into 4800-sample chunks pushed onto the queue,
kicks off `processNextAudioChunk` unless a drain is already in flight, and
clears `isSpeakingRef`.  The catch block also clears `isSpeakingRef`; a
throw from `textToSpeech` or from `downsampleAudio` lands there. -/
def processBackendResponse (env : MathEnv) (st : SessionState)
    (tts : Except Unit (List ℤ)) : SessionState :=
  let stEntry := { st with isSpeaking := true }
  match tts with
  | .error _ => { stEntry with isSpeaking := false }
  | .ok audioBuffer =>
    match downsampleAudio env audioBuffer 24000 16000 with
    | .error _ => { stEntry with isSpeaking := false }
    | .ok downsampledAudio =>
      let st1 := { stEntry with
        audioChunkQueue := stEntry.audioChunkQueue ++ chunkify 4800 downsampledAudio }
      let st2 := if st1.isProcessingChunk then st1 else processNextAudioChunk st1
      { st2 with isSpeaking := false }

/-- The `onTranscription` handler of the source, as a function of the
transcription event, the HTTP outcome of the backend call and the TTS
outcome.  Returns the new state and the text dispatched to the backend
(`none` when the event is dropped).  Non-final or low-confidence events
only update the UI transcript; a qualifying event is dropped when
`isSpeakingRef` is set; otherwise `sendMessageToBackend` is awaited and
its reply processed, errors being caught locally. -/
def onTranscriptionStep (env : MathEnv) (st : SessionState)
    (result : TranscriptionResult) (httpResult : Except Unit BackendData)
    (tts : Except Unit (List ℤ)) : SessionState × Option String :=
  if result.isFinal ∧ result.confidence > 0.7 then
    if st.isSpeaking then (st, none)
    else
      match sendMessageToBackend httpResult with
      | .error _ => (st, some result.transcript)
      | .ok _responseText => (processBackendResponse env st tts, some result.transcript)
  else (st, none)

/-- The `onConnectionChange` handler of the source, returning the new state
and the number of greetings synthesized by this event.  On a connection
confirmation with `isFirstRun` set, the flag is cleared and the greeting
`"Hello! How can I help you today?"` is sent through
`processBackendResponse` (after a 1 s timer, abstracted away); `greetTts`
is the TTS outcome for that greeting. -/
def onConnectionChange (env : MathEnv) (st : SessionState) (connected : Bool)
    (greetTts : Except Unit (List ℤ)) : SessionState × ℕ :=
  if connected then
    if st.isFirstRun then
      (processBackendResponse env { st with isFirstRun := false } greetTts, 1)
    else (st, 0)
  else (st, 0)

/-- `handleStop` of the source: clears the chunk queue and resets the
processing and speaking flags.  `isFirstRun` is NOT reset. -/
def handleStop (st : SessionState) : SessionState :=
  { st with audioChunkQueue := [], isProcessingChunk := false, isSpeaking := false }

/-- An external event driving the pipeline, carrying the outcomes of the
collaborator calls it triggers. -/
inductive Ev where
  | connChange (connected : Bool) (greetTts : Except Unit (List ℤ))
  | transcriptEv (result : TranscriptionResult)
      (httpResult : Except Unit BackendData) (tts : Except Unit (List ℤ))
  | stopEv

/-- Dispatch one event to its handler; the `ℕ` output counts greetings
synthesized by the event. -/
def step (env : MathEnv) (st : SessionState) : Ev → SessionState × ℕ
  | .connChange connected greetTts => onConnectionChange env st connected greetTts
  | .transcriptEv result httpResult tts =>
      ((onTranscriptionStep env st result httpResult tts).1, 0)
  | .stopEv => (handleStop st, 0)

/-- Run a list of events from a state, accumulating the greeting count. -/
def run (env : MathEnv) (st : SessionState) : List Ev → SessionState × ℕ
  | [] => (st, 0)
  | e :: es =>
    let p := step env st e
    let q := run env p.1 es
    (q.1, p.2 + q.2)

/-- Does an event confirm the transcription connection? -/
def isConnectConfirm : Ev → Bool
  | .connChange true _ => true
  | _ => false

/-! ### Helper lemmas about the delivery queue -/

theorem processNextAudioChunk_busy (st : SessionState)
    (h : st.isProcessingChunk = true) : processNextAudioChunk st = st := by
  unfold processNextAudioChunk
  split
  · rfl
  · rw [if_pos h]

theorem processNextAudioChunk_drains (st : SessionState)
    (h : st.isProcessingChunk = false) :
    processNextAudioChunk st =
      { st with audioChunkQueue := [], sent := st.sent ++ st.audioChunkQueue } := by
  generalize hq : st.audioChunkQueue = q
  induction q generalizing st with
  | nil =>
    obtain ⟨f, s, qq, p, se⟩ := st
    simp only at h hq
    subst h hq
    unfold processNextAudioChunk
    simp
  | cons c rest ih =>
    obtain ⟨f, s, qq, p, se⟩ := st
    simp only at h hq
    subst h hq
    unfold processNextAudioChunk
    simp only [Bool.false_eq_true, if_false]
    rw [ih ⟨f, s, rest, false, se ++ [c]⟩ rfl rfl]
    simp

/-! ### Helper lemmas about Int16 wrapping, rounding and indexing -/

theorem toInt16_lb (z : ℤ) : -32768 ≤ toInt16 z := by unfold toInt16; omega

theorem toInt16_ub (z : ℤ) : toInt16 z ≤ 32767 := by unfold toInt16; omega

theorem toInt16_eq_self {z : ℤ} (h1 : -32768 ≤ z) (h2 : z ≤ 32767) :
    toInt16 z = z := by unfold toInt16; omega

theorem jsRound_le_jsRound {x y : ℚ} (h : x ≤ y) : jsRound x ≤ jsRound y :=
  Int.floor_le_floor (by linarith)

unseal Rat.add Rat.mul Rat.sub Rat.inv in
theorem jsRound_intCast (n : ℤ) : jsRound (n : ℚ) = n := by
  unfold jsRound
  rw [add_comm, Int.floor_add_int]
  norm_num

theorem applyLowPassFilter_length (env : MathEnv) (data : List ℤ)
    (cutoffFreq sampleRate : ℚ) :
    (applyLowPassFilter env data cutoffFreq sampleRate).length = data.length := by
  simp [applyLowPassFilter]

theorem applyLowPassFilter_mem_range {env : MathEnv} {data : List ℤ}
    {cutoffFreq sampleRate : ℚ} {x : ℤ}
    (hx : x ∈ applyLowPassFilter env data cutoffFreq sampleRate) :
    -32768 ≤ x ∧ x ≤ 32767 := by
  simp only [applyLowPassFilter, List.mem_map] at hx
  obtain ⟨i, _, rfl⟩ := hx
  exact ⟨toInt16_lb _, toInt16_ub _⟩

theorem getZ_range {l : List ℤ} (hl : ∀ x ∈ l, -32768 ≤ x ∧ x ≤ 32767) (k : ℤ) :
    -32768 ≤ getZ l k ∧ getZ l k ≤ 32767 := by
  unfold getZ
  split
  · omega
  · by_cases hk : k.toNat < l.length
    · rw [List.getD_eq_getElem l 0 hk]
      exact hl _ (List.getElem_mem hk)
    · rw [List.getD_eq_default l 0 (by omega)]
      omega

theorem interp_range {a b f : ℚ} (ha1 : -32768 ≤ a) (ha2 : a ≤ 32767)
    (hb1 : -32768 ≤ b) (hb2 : b ≤ 32767) (hf0 : 0 ≤ f) (hf1 : f ≤ 1) :
    -32768 ≤ a + f * (b - a) ∧ a + f * (b - a) ≤ 32767 := by
  have e : a + f * (b - a) = (1 - f) * a + f * b := by ring
  have l1 : (1 - f) * (-32768) ≤ (1 - f) * a :=
    mul_le_mul_of_nonneg_left ha1 (by linarith)
  have l2 : f * (-32768) ≤ f * b := mul_le_mul_of_nonneg_left hb1 hf0
  have u1 : (1 - f) * a ≤ (1 - f) * 32767 :=
    mul_le_mul_of_nonneg_left ha2 (by linarith)
  have u2 : f * b ≤ f * 32767 := mul_le_mul_of_nonneg_left hb2 hf0
  constructor <;> nlinarith

theorem jsRound_interp_range {A B : ℤ} (hA1 : -32768 ≤ A) (hA2 : A ≤ 32767)
    (hB1 : -32768 ≤ B) (hB2 : B ≤ 32767) {f : ℚ} (hf0 : 0 ≤ f) (hf1 : f ≤ 1) :
    -32768 ≤ jsRound ((A : ℚ) + f * ((B : ℚ) - A)) ∧
      jsRound ((A : ℚ) + f * ((B : ℚ) - A)) ≤ 32767 := by
  have hA1q : (-32768 : ℚ) ≤ (A : ℚ) := by exact_mod_cast hA1
  have hA2q : (A : ℚ) ≤ 32767 := by exact_mod_cast hA2
  have hB1q : (-32768 : ℚ) ≤ (B : ℚ) := by exact_mod_cast hB1
  have hB2q : (B : ℚ) ≤ 32767 := by exact_mod_cast hB2
  obtain ⟨hv1, hv2⟩ := interp_range hA1q hA2q hB1q hB2q hf0 hf1
  constructor
  · have h := jsRound_le_jsRound
      (x := ((-32768 : ℤ) : ℚ)) (y := (A : ℚ) + f * ((B : ℚ) - A))
      (by push_cast; linarith)
    rwa [jsRound_intCast] at h
  · have h := jsRound_le_jsRound
      (x := (A : ℚ) + f * ((B : ℚ) - A)) (y := ((32767 : ℤ) : ℚ))
      (by push_cast; linarith)
    rwa [jsRound_intCast] at h

theorem index_bound {len : ℕ} {r : ℚ} (hr : 1 < r) {i : ℕ}
    (hi : (i : ℤ) < ⌊(len : ℚ) / r⌋) :
    0 ≤ ⌊(i : ℚ) * r⌋ ∧ ⌊(i : ℚ) * r⌋ + 1 < (len : ℤ) := by
  have hr0 : (0 : ℚ) < r := by linarith
  constructor
  · exact Int.le_floor.mpr (by push_cast; positivity)
  · have h1 : (((i : ℤ) + 1 : ℤ) : ℚ) ≤ (len : ℚ) / r :=
      Int.le_floor.mp (by omega)
    have h2 : ((i : ℚ) + 1) * r ≤ (len : ℚ) := by
      have := (le_div_iff₀ hr0).mp h1
      push_cast at this
      linarith
    have h3 : (i : ℚ) * r < (len : ℚ) - 1 := by nlinarith
    have h4 : ⌊(i : ℚ) * r⌋ < (len : ℤ) - 1 := Int.floor_lt.mpr (by push_cast; linarith)
    omega

theorem fract_nonneg_of_floor (p : ℚ) : 0 ≤ p - (⌊p⌋ : ℚ) :=
  sub_nonneg.mpr (Int.floor_le p)

theorem fract_le_one_of_floor (p : ℚ) : p - (⌊p⌋ : ℚ) ≤ 1 := by
  have := Int.lt_floor_add_one p
  linarith

/-! ### Helper lemmas about chunking -/

theorem chunkify_flatten {c : ℕ} (hc : 1 ≤ c) (l : List ℤ) :
    (chunkify c l).flatten = l := by
  generalize hn : l.length = n
  induction n using Nat.strong_induction_on generalizing l with
  | _ n ih =>
    cases l with
    | nil => simp [chunkify]
    | cons x xs =>
      simp only [List.length_cons] at hn
      have hlt : ((x :: xs).drop c).length < n := by
        simp only [List.length_drop, List.length_cons]
        omega
      rw [chunkify, if_pos hc, List.flatten_cons]
      rw [ih _ hlt _ rfl]
      exact List.take_append_drop c (x :: xs)

theorem chunkify_getD {c : ℕ} (hc : 1 ≤ c) (l : List ℤ) (k : ℕ) :
    (chunkify c l).getD k [] = (l.drop (k * c)).take c := by
  generalize hn : l.length = n
  induction n using Nat.strong_induction_on generalizing l k with
  | _ n ih =>
    cases l with
    | nil => simp [chunkify]
    | cons x xs =>
      simp only [List.length_cons] at hn
      have hlt : ((x :: xs).drop c).length < n := by
        simp only [List.length_drop, List.length_cons]
        omega
      rw [chunkify, if_pos hc]
      cases k with
      | zero => simp
      | succ k =>
        show (chunkify c ((x :: xs).drop c)).getD k [] = _
        rw [ih _ hlt _ k rfl]
        rw [List.drop_drop]
        congr 2
        ring

/-! ### Preservation lemmas for the session state machine -/

theorem processNextAudioChunk_isFirstRun (st : SessionState) :
    (processNextAudioChunk st).isFirstRun = st.isFirstRun := by
  cases hp : st.isProcessingChunk
  · rw [processNextAudioChunk_drains st hp]
  · rw [processNextAudioChunk_busy st hp]

theorem processBackendResponse_isFirstRun (env : MathEnv) (st : SessionState)
    (tts : Except Unit (List ℤ)) :
    (processBackendResponse env st tts).isFirstRun = st.isFirstRun := by
  unfold processBackendResponse
  split
  · rfl
  · split
    · rfl
    · dsimp only
      split
      · rfl
      · rw [processNextAudioChunk_isFirstRun]

theorem processBackendResponse_isSpeaking (env : MathEnv) (st : SessionState)
    (tts : Except Unit (List ℤ)) :
    (processBackendResponse env st tts).isSpeaking = false := by
  unfold processBackendResponse
  split
  · rfl
  · split <;> rfl

theorem onTranscriptionStep_isFirstRun (env : MathEnv) (st : SessionState)
    (result : TranscriptionResult) (httpResult : Except Unit BackendData)
    (tts : Except Unit (List ℤ)) :
    ((onTranscriptionStep env st result httpResult tts).1).isFirstRun = st.isFirstRun := by
  unfold onTranscriptionStep
  split
  · split
    · rfl
    · cases sendMessageToBackend httpResult with
      | error e => rfl
      | ok t => exact processBackendResponse_isFirstRun env st tts
  · rfl

/-- The greeting count of a whole run: one greeting is synthesized iff the
first-run flag is still set and some connection confirmation occurs; the
flag is cleared by the first confirmation and never set again. -/
theorem run_greetings (env : MathEnv) (evs : List Ev) :
    ∀ st : SessionState,
      (run env st evs).2 = if st.isFirstRun && evs.any isConnectConfirm then 1 else 0 := by
  induction evs with
  | nil => intro st; simp [run]
  | cons e es ih =>
    intro st
    cases e with
    | connChange connected g =>
      cases connected with
      | false =>
        simp [run, step, onConnectionChange, isConnectConfirm, ih st]
      | true =>
        cases hf : st.isFirstRun with
        | true =>
          simp [run, step, onConnectionChange, hf, isConnectConfirm,
            processBackendResponse_isFirstRun, ih]
        | false =>
          simp [run, step, onConnectionChange, hf, isConnectConfirm, ih]
    | transcriptEv r hR t =>
      simp [run, step, isConnectConfirm, onTranscriptionStep_isFirstRun, ih]
    | stopEv =>
      simp [run, step, handleStop, isConnectConfirm, ih]

/-- The element read at `items.length − 1` by `sendMessageToBackend` is the
last element of the array. -/
theorem getD_length_sub_one {items : List JsItem} (h : items ≠ []) :
    items.getD (items.length - 1) .jnull = items.getLast h := by
  have hl : items.length - 1 < items.length := by
    cases items with
    | nil => exact absurd rfl h
    | cons a as => simp
  rw [List.getD_eq_getElem _ _ hl, List.getLast_eq_getElem]

/-! ### Claim theorems -/

/-- C1: a `TranscriptEvent` delivered to the transcription handler has its
transcript dispatched to the backend if and only if `isFinal = true`, the
confidence exceeds 0.7, and the speaking flag is not set; otherwise the
event is dropped with no backend call. -/
theorem c1_transcript_dispatch_iff (env : MathEnv) (st : SessionState)
    (result : TranscriptionResult) (httpResult : Except Unit BackendData)
    (tts : Except Unit (List ℤ)) :
    (onTranscriptionStep env st result httpResult tts).2 =
      if result.isFinal = true ∧ result.confidence > 0.7 ∧ st.isSpeaking = false
      then some result.transcript else none := by
  unfold onTranscriptionStep
  by_cases hf : result.isFinal = true
  · by_cases hc : result.confidence > 0.7
    · cases hs : st.isSpeaking with
      | true => simp [hf, hc, hs]
      | false =>
        cases hm : sendMessageToBackend httpResult with
        | error e => simp [hf, hc, hs, hm]
        | ok t => simp [hf, hc, hs, hm]
    · simp [hf, hc]
  · simp [hf]

/-- C2 (counterexample): the claim "exactly one greeting per session,
including a second session started after a stop" fails: the first session's
connection confirmation synthesizes one greeting, but after a stop the
second session's connection confirmation synthesizes none, because
`handleStop` never resets `isFirstRun`. -/
theorem c2_second_session_no_greeting :
    (run env0 initialState [Ev.connChange true (Except.error ())]).2 = 1 ∧
    (run env0
        (run env0 initialState
          [Ev.connChange true (Except.error ()), Ev.stopEv]).1
        [Ev.connChange true (Except.error ())]).2 = 0 := by
  constructor <;> rfl

/-- C2 (amended): exactly one greeting is synthesized per component
lifetime — on the first connection confirmation ever, independent of any
transcript; a run of events synthesizes one greeting iff it contains a
connection confirmation, and any session after a stop synthesizes none. -/
theorem c2_greeting_once_per_lifetime (env : MathEnv) (evs : List Ev) :
    (run env initialState evs).2 = if evs.any isConnectConfirm then 1 else 0 := by
  rw [run_greetings env evs initialState]
  simp [initialState]

/-- C3: `processBackendResponse` leaves the speaking flag `false` on every
return — after a successful synthesis as soon as resampling and enqueueing
complete (irrespective of the sink playing the queued audio), and on the
error path, where nothing but the flag changes.  (The flag is set to `true`
at entry — the `stEntry` binding — and is therefore set during the awaited
synthesis.) -/
theorem c3_speaking_cleared (env : MathEnv) (st : SessionState) :
    (∀ tts, (processBackendResponse env st tts).isSpeaking = false) ∧
    (∀ e, processBackendResponse env st (Except.error e) =
        { st with isSpeaking := false }) :=
  ⟨fun tts => processBackendResponse_isSpeaking env st tts, fun _ => rfl⟩

/-- C7: for every buffer and chunk size of at least one sample, the chunks
pushed onto the queue are the consecutive in-order slices of the buffer
(`k`-th chunk = samples `k·c` to `k·c + c`, the last possibly shorter), and
concatenating them in queue order reproduces the buffer exactly. -/
theorem c7_chunk_concat (c : ℕ) (l : List ℤ) (hc : 1 ≤ c) :
    (chunkify c l).flatten = l ∧
    ∀ k : ℕ, (chunkify c l).getD k [] = (l.drop (k * c)).take c :=
  ⟨chunkify_flatten hc l, fun k => chunkify_getD hc l k⟩

/-- Witness for C7 at chunk size 2 and the buffer `[1,2,3,4,5]`. -/
theorem c7_chunk_witness :
    (chunkify 2 [1, 2, 3, 4, 5]).flatten = [1, 2, 3, 4, 5] ∧
    (chunkify 2 [1, 2, 3, 4, 5]).getD 1 [] =
      (([1, 2, 3, 4, 5] : List ℤ).drop (1 * 2)).take 2 :=
  ⟨(c7_chunk_concat 2 [1, 2, 3, 4, 5] (by decide)).1,
   (c7_chunk_concat 2 [1, 2, 3, 4, 5] (by decide)).2 1⟩

/-- C8: a call to `processNextAudioChunk` made while a drain is in flight
is a no-op; otherwise the drain delivers exactly the queued chunks to the
sink, appended to the delivery log in their FIFO queue order (each exactly
once), leaves the queue empty, and clears the in-flight flag. -/
theorem c8_single_drain_fifo (st : SessionState) :
    (st.isProcessingChunk = true → processNextAudioChunk st = st) ∧
    (st.isProcessingChunk = false →
      (processNextAudioChunk st).sent = st.sent ++ st.audioChunkQueue ∧
      (processNextAudioChunk st).audioChunkQueue = [] ∧
      (processNextAudioChunk st).isProcessingChunk = false) := by
  constructor
  · exact processNextAudioChunk_busy st
  · intro h
    rw [processNextAudioChunk_drains st h]
    exact ⟨rfl, rfl, h⟩

/-- Witness for C8: a busy state is untouched; an idle drain delivers the
two queued chunks in order. -/
theorem c8_drain_witness :
    processNextAudioChunk
        { isFirstRun := true, isSpeaking := false, audioChunkQueue := [[1], [2]],
          isProcessingChunk := true, sent := [] } =
      { isFirstRun := true, isSpeaking := false, audioChunkQueue := [[1], [2]],
        isProcessingChunk := true, sent := [] } ∧
    ((processNextAudioChunk
        { isFirstRun := true, isSpeaking := false, audioChunkQueue := [[1], [2, 3]],
          isProcessingChunk := false, sent := [[0]] }).sent = [[0]] ++ [[1], [2, 3]] ∧
      (processNextAudioChunk
        { isFirstRun := true, isSpeaking := false, audioChunkQueue := [[1], [2, 3]],
          isProcessingChunk := false, sent := [[0]] }).audioChunkQueue = [] ∧
      (processNextAudioChunk
        { isFirstRun := true, isSpeaking := false, audioChunkQueue := [[1], [2, 3]],
          isProcessingChunk := false, sent := [[0]] }).isProcessingChunk = false) :=
  ⟨(c8_single_drain_fifo _).1 rfl, (c8_single_drain_fifo _).2 rfl⟩

/-- C9: `downsampleAudio` fails with the `"Upsampling is not supported"`
error exactly when the input rate is below the output rate. -/
theorem c9_upsampling_error_iff (env : MathEnv) (audioData : List ℤ)
    (rin rout : ℚ) :
    downsampleAudio env audioData rin rout =
        Except.error "Upsampling is not supported" ↔ rin < rout := by
  unfold downsampleAudio
  by_cases h1 : rin = rout
  · simp [h1]
  · by_cases h2 : rin < rout
    · simp [h1, h2]
    · simp [h1, h2]

/-- C10 (counterexample): on a fulfilled HTTP request whose body is the
array `[null]`, reading `.text` of the last element throws a TypeError that
the catch block re-throws, so `sendMessageToBackend` can throw even though
the HTTP request itself did not reject. -/
theorem c10_null_element_throws :
    sendMessageToBackend (Except.ok (BackendData.arr [JsItem.jnull])) =
      Except.error () := rfl

/-- C10 (amended): a rejected HTTP request is re-thrown; a fulfilled
response whose body is not a non-empty array yields the fallback
`"Sorry, I didn't get a response."`; a non-empty array whose last element
has no (or an empty) `text` yields `"Sorry, I didn't catch that."`, and a
non-empty `text` is returned verbatim; in addition to a rejected request,
the function throws exactly when the last array element is null/undefined
(property-access TypeError). -/
theorem c10_backend_fallbacks :
    (∀ e : Unit, sendMessageToBackend (Except.error e) = Except.error e) ∧
    (∀ t : Bool, sendMessageToBackend (Except.ok (BackendData.nonArr t)) =
        Except.ok "Sorry, I didn't get a response.") ∧
    sendMessageToBackend (Except.ok (BackendData.arr [])) =
        Except.ok "Sorry, I didn't get a response." ∧
    (∀ (items : List JsItem) (h : items ≠ []),
        itemText (items.getLast h) = Except.ok none →
        sendMessageToBackend (Except.ok (BackendData.arr items)) =
          Except.ok "Sorry, I didn't catch that.") ∧
    (∀ (items : List JsItem) (h : items ≠ []) (t : String),
        itemText (items.getLast h) = Except.ok (some t) → t ≠ "" →
        sendMessageToBackend (Except.ok (BackendData.arr items)) = Except.ok t) ∧
    (∀ (items : List JsItem) (h : items ≠ []),
        items.getLast h = JsItem.jnull →
        sendMessageToBackend (Except.ok (BackendData.arr items)) =
          Except.error ()) := by
  have hpos : ∀ (items : List JsItem), items ≠ [] → 0 < items.length := by
    intro items h
    cases items with
    | nil => exact absurd rfl h
    | cons a as => simp
  refine ⟨fun e => rfl, fun t => rfl, rfl, ?_, ?_, ?_⟩
  · intro items h hit
    dsimp only [sendMessageToBackend]
    rw [if_pos (hpos items h), getD_length_sub_one h, hit]
  · intro items h t hit ht
    dsimp only [sendMessageToBackend]
    rw [if_pos (hpos items h), getD_length_sub_one h, hit]
    simp [ht]
  · intro items h hnull
    dsimp only [sendMessageToBackend]
    rw [if_pos (hpos items h), getD_length_sub_one h, hnull]
    rfl

/-- Witness for C10: an object without `text` yields the catch-all reply,
an object with text `"hello"` yields it verbatim. -/
theorem c10_backend_witness :
    sendMessageToBackend (Except.ok (BackendData.arr [JsItem.jobj none])) =
      Except.ok "Sorry, I didn't catch that." ∧
    sendMessageToBackend (Except.ok (BackendData.arr [JsItem.jobj (some "hello")])) =
      Except.ok "hello" :=
  ⟨c10_backend_fallbacks.2.2.2.1 [JsItem.jobj none] (by simp) rfl,
   c10_backend_fallbacks.2.2.2.2.1 [JsItem.jobj (some "hello")] (by simp) "hello" rfl
     (by decide)⟩

/-! ### C4, C5, C6: resampler shape, kernel normalization, rounding policy -/

set_option maxRecDepth 8000 in
unseal Rat.add Rat.mul Rat.sub Rat.inv Rat.ofScientific in
/-- C5 (counterexample): the claim "for every cutoff frequency and sample
rate the normalized coefficients sum to 1" fails at cutoff 0: every raw
coefficient is `sin 0 / k · w = 0` (and the middle is `2π·0`), so the
normalizing sum is 0 and normalization divides zero by zero; the normalized
coefficients do not sum to 1.  Only `sin 0 = 0` is used of the trig
environment, which agrees with the real `Math.sin`. -/
theorem c5_zero_cutoff_not_one :
    (∑ i ∈ Finset.range 31, coeffNorm env0 ((0 : ℚ) / 1) i) ≠ 1 := by decide

/-- C5 (amended): for every cutoff frequency and sample rate for which the
raw windowed-sinc coefficient sum is nonzero (every non-degenerate cutoff;
cutoff 0 is the exception), the coefficients after normalization sum to
exactly 1, i.e. DC gain is 1. -/
theorem c5_kernel_sum_one (env : MathEnv) (cutoffFreq sampleRate : ℚ)
    (h : coeffSum env (cutoffFreq / sampleRate) ≠ 0) :
    ∑ i ∈ Finset.range 31, coeffNorm env (cutoffFreq / sampleRate) i = 1 := by
  unfold coeffNorm
  rw [← Finset.sum_div]
  exact div_self h

set_option maxRecDepth 8000 in
unseal Rat.add Rat.mul Rat.sub Rat.inv Rat.ofScientific in
/-- Witness for C5 at cutoff 1, rate 2 in the concrete environment. -/
theorem c5_kernel_witness :
    coeffSum env0 ((1 : ℚ) / 2) ≠ 0 ∧
    (∑ i ∈ Finset.range 31, coeffNorm env0 ((1 : ℚ) / 2) i) = 1 :=
  ⟨by decide, c5_kernel_sum_one env0 1 2 (by decide)⟩

theorem jsRound_eq_roundAway {x : ℚ} (h : ¬(x < 0 ∧ x - ⌊x⌋ = 1/2)) :
    jsRound x = roundAway x := by
  unfold jsRound roundAway
  by_cases hx : 0 ≤ x
  · rw [if_pos hx]
  · rw [if_neg hx]
    push_neg at hx h
    have hsp : x - ⌊x⌋ ≠ 1/2 := h hx
    have hfl : (⌊x⌋ : ℚ) ≤ x := Int.floor_le x
    have hfu : x < ⌊x⌋ + 1 := Int.lt_floor_add_one x
    rcases lt_or_gt_of_ne hsp with hlt | hgt
    · have e1 : ⌊x + 1/2⌋ = ⌊x⌋ :=
        Int.floor_eq_iff.mpr ⟨by linarith, by linarith⟩
      have e2 : ⌊-x + 1/2⌋ = -⌊x⌋ :=
        Int.floor_eq_iff.mpr ⟨by push_cast; linarith, by push_cast; linarith⟩
      rw [e1, e2]
      omega
    · have e1 : ⌊x + 1/2⌋ = ⌊x⌋ + 1 :=
        Int.floor_eq_iff.mpr ⟨by push_cast; linarith, by push_cast; linarith⟩
      have e2 : ⌊-x + 1/2⌋ = -⌊x⌋ - 1 :=
        Int.floor_eq_iff.mpr ⟨by push_cast; linarith, by push_cast; linarith⟩
      rw [e1, e2]
      omega

theorem jsRound_negHalf {x : ℚ} (h1 : x < 0) (h2 : x - ⌊x⌋ = 1/2) :
    jsRound x = roundAway x + 1 := by
  unfold jsRound roundAway
  rw [if_neg (not_le.mpr h1)]
  have hfl : (⌊x⌋ : ℚ) ≤ x := Int.floor_le x
  have e1 : ⌊x + 1/2⌋ = ⌊x⌋ + 1 :=
    Int.floor_eq_iff.mpr ⟨by push_cast; linarith, by push_cast; linarith⟩
  have e2 : ⌊-x + 1/2⌋ = -⌊x⌋ :=
    Int.floor_eq_iff.mpr ⟨by push_cast; linarith, by push_cast; linarith⟩
  rw [e1, e2]
  omega

set_option maxRecDepth 8000 in
unseal Rat.add Rat.mul Rat.sub Rat.inv Rat.ofScientific in
/-- C6 (counterexample): the resampler and its round-half-away-from-zero
variant disagree on a concrete buffer.  In the environment `env0` the
kernel normalizes to a unit impulse, so the filter is the identity; at
output index 1 the interpolation value is `(-1 + 0)/2 = -1/2`, which
`Math.round` takes to `0` (half toward +∞) while round-half-away-from-zero
takes it to `-1`.  So the resampler's rounding is not
round-half-away-from-zero. -/
theorem c6_rounding_counterexample :
    downsampleAudio env0 [0, -1, 0, 0] 3 2 = Except.ok [0, 0] ∧
    downsampleAudioAway env0 [0, -1, 0, 0] 3 2 = Except.ok [0, -1] ∧
    downsampleAudio env0 [0, -1, 0, 0] 3 2 ≠
      downsampleAudioAway env0 [0, -1, 0, 0] 3 2 := by
  refine ⟨by decide, by decide, by decide⟩

set_option maxRecDepth 8000 in
unseal Rat.add Rat.mul Rat.sub Rat.inv Rat.ofScientific in
/-- C6 (amended): every rounded sample of the resampler uses JavaScript
`Math.round`, i.e. round half toward +∞ — which agrees with
round-half-away-from-zero everywhere except at values exactly half below an
integer and below zero, where it is one larger; and no clamping or
saturation is applied: a filter output exceeding the 16-bit range is
wrapped by the `Int16Array` conversion (32768 becomes −32768, not 32767).
-/
theorem c6_rounding_policy :
    (∀ x : ℚ, ¬(x < 0 ∧ x - ⌊x⌋ = 1/2) → jsRound x = roundAway x) ∧
    (∀ x : ℚ, x < 0 → x - ⌊x⌋ = 1/2 → jsRound x = roundAway x + 1) ∧
    applyLowPassFilter envWrap [16384, 0] 1 2 = [-32768, 0] :=
  ⟨fun _ h => jsRound_eq_roundAway h, fun _ h1 h2 => jsRound_negHalf h1 h2, by decide⟩

set_option maxRecDepth 8000 in
unseal Rat.add Rat.mul Rat.sub Rat.inv Rat.ofScientific in
/-- Witness for C6: the two rounding modes agree at `3/2` and differ by one
at `-1/2`. -/
theorem c6_rounding_witness :
    jsRound (3 / 2) = roundAway (3 / 2) ∧
    jsRound (-(1 / 2)) = roundAway (-(1 / 2)) + 1 :=
  ⟨c6_rounding_policy.1 (3 / 2) (by decide),
   c6_rounding_policy.2.1 (-(1 / 2)) (by decide) (by decide)⟩

/-- C4: for `0 < R_out < R_in`, `downsampleAudio` succeeds with a buffer of
length `⌊len / (R_in / R_out)⌋` whose `i`-th sample is the `Math.round` of
the linear interpolation between the low-pass-filtered samples at `⌊p⌋` and
`⌊p⌋ + 1` with fractional weight `p − ⌊p⌋`, for `p = i · R_in / R_out`;
moreover both interpolation indices are always in range (the non-interpolating
fallback branch of the source is dead code for downsampling). -/
theorem c4_downsample_shape (env : MathEnv) (data : List ℤ) (rin rout : ℚ)
    (h0 : 0 < rout) (h1 : rout < rin) :
    downsampleAudio env data rin rout =
      Except.ok ((List.range (⌊(data.length : ℚ) / (rin / rout)⌋).toNat).map
        fun (i : ℕ) => jsRound (interpSpec
          (applyLowPassFilter env data (rout * 0.45) rin) ((i : ℚ) * (rin / rout)))) ∧
    ∀ i : ℕ, i < (⌊(data.length : ℚ) / (rin / rout)⌋).toNat →
      0 ≤ ⌊(i : ℚ) * (rin / rout)⌋ ∧
      ⌊(i : ℚ) * (rin / rout)⌋ + 1 < (data.length : ℤ) := by
  have hr : 1 < rin / rout := (one_lt_div h0).mpr h1
  have hbound : ∀ i : ℕ, i < (⌊(data.length : ℚ) / (rin / rout)⌋).toNat →
      0 ≤ ⌊(i : ℚ) * (rin / rout)⌋ ∧
      ⌊(i : ℚ) * (rin / rout)⌋ + 1 < (data.length : ℤ) := by
    intro i hi
    exact index_bound hr (by omega)
  refine ⟨?_, hbound⟩
  unfold downsampleAudio
  rw [if_neg (ne_of_gt h1), if_neg (not_lt.mpr h1.le)]
  dsimp only
  congr 1
  apply List.ext_getElem
  · simp
  intro i h1 h2
  simp only [List.getElem_map, List.getElem_range]
  have hiN : i < (⌊(data.length : ℚ) / (rin / rout)⌋).toNat := by simpa using h1
  obtain ⟨hge, hlt⟩ := hbound i hiN
  have hflen : (applyLowPassFilter env data (rout * 0.45) rin).length = data.length :=
    applyLowPassFilter_length env data (rout * 0.45) rin
  rw [if_pos (by rw [hflen]; exact hlt)]
  have hmem : ∀ x ∈ applyLowPassFilter env data (rout * 0.45) rin,
      -32768 ≤ x ∧ x ≤ 32767 := fun x hx => applyLowPassFilter_mem_range hx
  have hA := getZ_range hmem ⌊(i : ℚ) * (rin / rout)⌋
  have hB := getZ_range hmem (⌊(i : ℚ) * (rin / rout)⌋ + 1)
  have hf0 := fract_nonneg_of_floor ((i : ℚ) * (rin / rout))
  have hf1 := fract_le_one_of_floor ((i : ℚ) * (rin / rout))
  have hjr := jsRound_interp_range hA.1 hA.2 hB.1 hB.2 hf0 hf1
  rw [toInt16_eq_self hjr.1 hjr.2]
  congr 1
  unfold interpSpec
  ring

/-- Witness for C4 at the concrete environment, buffer `[0,0,0,1]` and the
rates 3 and 2. -/
theorem c4_downsample_witness :
    downsampleAudio env0 [0, 0, 0, 1] 3 2 =
      Except.ok ((List.range (⌊(([0, 0, 0, 1] : List ℤ).length : ℚ) / (3 / 2)⌋).toNat).map
        fun (i : ℕ) => jsRound (interpSpec
          (applyLowPassFilter env0 [0, 0, 0, 1] (2 * 0.45) 3) ((i : ℚ) * (3 / 2)))) ∧
    ∀ i : ℕ, i < (⌊(([0, 0, 0, 1] : List ℤ).length : ℚ) / (3 / 2)⌋).toNat →
      0 ≤ ⌊(i : ℚ) * (3 / 2)⌋ ∧
      ⌊(i : ℚ) * (3 / 2)⌋ + 1 < (([0, 0, 0, 1] : List ℤ).length : ℤ) :=
  c4_downsample_shape env0 [0, 0, 0, 1] 3 2 (by decide) (by decide)
